import Mathlib

/-!
A shallow embedding of the MPU6050 MicroPython driver (src/src/Gyro.py).

Modelling conventions:
* Python floats are modelled as rationals (`ℚ`); every arithmetic step the
  driver performs (division by a sensitivity factor, accumulation, averaging)
  is exact at the values the claims exercise.
* The I2C bus is modelled as a function from register address to the byte a
  one-byte `readfrom_mem` returns.  Routines that read the bus repeatedly
  (calibration) take a family of such functions, one per loop iteration.
* MicroPython's millisecond tick counter is a natural number; `time.ticks_ms`
  values are passed in as the `now` argument of each time-dependent
  operation, and `time.ticks_diff` is the wraparound-safe signed difference
  on the standard 2^30 tick period.
* The single-character Python dict keys `x`, `y`, `z` are modelled as `Char`
  keys of an association list, so that `set_gyro_offset` can receive a
  mapping with missing or extra keys exactly as in Python.
* Python's `int()` conversion of a float truncates toward zero; `int_trunc`
  is that conversion on `ℚ`.
* `time.sleep` and the `print` calls have no observable effect in the model.
-/

/-- A 3-axis vector of rationals: the values of a dict with keys x, y, z. -/
structure Vec3 where
  x : ℚ
  y : ℚ
  z : ℚ
deriving DecidableEq

/-- A 3-axis vector of integers: the integer view `theta`. -/
structure IVec3 where
  x : ℤ
  y : ℤ
  z : ℤ
deriving DecidableEq

/-- A Python dict from axis letters to floats, as an association list. -/
abbrev OffsetMap := List (Char × ℚ)

/-- Python `axis in offset`: key membership in the dict. -/
def hasKey (offset : OffsetMap) (axis : Char) : Bool :=
  (List.lookup axis offset).isSome

/-- `offset[axis] = f (offset[axis])` on an existing key of the dict. -/
def updKey (offset : OffsetMap) (axis : Char) (f : ℚ → ℚ) : OffsetMap :=
  offset.map fun p => if p.1 = axis then (p.1, f p.2) else p

/-- MicroPython's tick period: ticks roll over modulo 2^30 on standard ports. -/
def TICKS_PERIOD : ℕ := 2 ^ 30

/-- MicroPython `time.ticks_diff(x, y)`: the wraparound-safe signed
difference of two tick values, in [-2^29, 2^29). -/
def ticks_diff (x y : ℕ) : ℤ :=
  ((x : ℤ) - (y : ℤ) + (TICKS_PERIOD : ℤ) / 2) % (TICKS_PERIOD : ℤ) - (TICKS_PERIOD : ℤ) / 2

/-- Python `int()` on a float: truncation toward zero. -/
def int_trunc (q : ℚ) : ℤ :=
  if q < 0 then ⌈q⌉ else ⌊q⌋

/-- The mutable attributes of class `MPU6050`.  The i2c handle, the device
address and the register-map constants are immutable and live outside the
state; the bus is passed to each operation explicitly. -/
structure MPU6050 where
  omega_offset_sensetivity_factor : ℚ
  accel_offset_sensetivity_factor : ℚ
  theta : IVec3
  _theta_f : Vec3
  last_update : ℕ
  omega_offset : OffsetMap
deriving DecidableEq

namespace MPU6050

/-- Register-map constant `_PWR_MGMT_1`. -/
def _PWR_MGMT_1 : ℕ := 0x6B

/-- Register-map constant `_TEMP_OUT_H`. -/
def _TEMP_OUT_H : ℕ := 0x41

/-- Register-map constant `_ACCEL_XOUT_H`. -/
def _ACCEL_XOUT_H : ℕ := 0x3B

/-- Register-map constant `_ACCEL_YOUT_H`. -/
def _ACCEL_YOUT_H : ℕ := 0x3D

/-- Register-map constant `_ACCEL_ZOUT_H`. -/
def _ACCEL_ZOUT_H : ℕ := 0x3F

/-- Register-map constant `_GYRO_XOUT_H`. -/
def _GYRO_XOUT_H : ℕ := 0x43

/-- Register-map constant `_GYRO_YOUT_H`. -/
def _GYRO_YOUT_H : ℕ := 0x45

/-- Register-map constant `_GYRO_ZOUT_H`. -/
def _GYRO_ZOUT_H : ℕ := 0x47

/-- `_read_raw_data(reg)`: two one-byte reads at `reg` and `reg + 1`,
combined big-endian as `(high << 8) | low`, then reinterpreted as a signed
16-bit two's-complement value (`value -= 65536` when `value > 32767`). -/
def _read_raw_data (bus : ℕ → ℕ) (reg : ℕ) : ℤ :=
  let high := bus reg
  let low := bus (reg + 1)
  let value := (high <<< 8) ||| low
  if value > 32767 then (value : ℤ) - 65536 else (value : ℤ)

/-- `get_temp()`: `raw / 340.0 + 36.53` in Celsius. -/
def get_temp (bus : ℕ → ℕ) : ℚ :=
  let rawtemp := _read_raw_data bus _TEMP_OUT_H
  (rawtemp : ℚ) / 340 + 36.53

/-- `get_accel()`: the three raw accel registers, each divided by the accel
sensitivity factor. -/
def get_accel (bus : ℕ → ℕ) (s : MPU6050) : Vec3 :=
  let ax := (_read_raw_data bus _ACCEL_XOUT_H : ℚ) / s.accel_offset_sensetivity_factor
  let ay := (_read_raw_data bus _ACCEL_YOUT_H : ℚ) / s.accel_offset_sensetivity_factor
  let az := (_read_raw_data bus _ACCEL_ZOUT_H : ℚ) / s.accel_offset_sensetivity_factor
  ⟨ax, ay, az⟩

/-- `get_omega()`: the three raw gyro registers divided by the gyro
sensitivity factor, bias-subtracted with `omega_offset[axis]`.  A missing
axis key would raise `KeyError` in Python, hence the `Option`. -/
def get_omega (bus : ℕ → ℕ) (s : MPU6050) : Option Vec3 :=
  let gx := (_read_raw_data bus _GYRO_XOUT_H : ℚ) / s.omega_offset_sensetivity_factor
  let gy := (_read_raw_data bus _GYRO_YOUT_H : ℚ) / s.omega_offset_sensetivity_factor
  let gz := (_read_raw_data bus _GYRO_ZOUT_H : ℚ) / s.omega_offset_sensetivity_factor
  match List.lookup 'x' s.omega_offset, List.lookup 'y' s.omega_offset,
      List.lookup 'z' s.omega_offset with
  | some ox, some oy, some oz => some ⟨gx - ox, gy - oy, gz - oz⟩
  | _, _, _ => none

/-- One iteration of the `_calibrate_gyro` loop: read the three gyro axes
scaled by the sensitivity factor and add them onto the accumulator dict. -/
def _calibrate_gyro_step (bus : ℕ → ℕ) (factor : ℚ) (offset : OffsetMap) : OffsetMap :=
  let gx := (_read_raw_data bus _GYRO_XOUT_H : ℚ) / factor
  let gy := (_read_raw_data bus _GYRO_YOUT_H : ℚ) / factor
  let gz := (_read_raw_data bus _GYRO_ZOUT_H : ℚ) / factor
  updKey (updKey (updKey offset 'x' (· + gx)) 'y' (· + gy)) 'z' (· + gz)

/-- `_calibrate_gyro(samples)`: start from `{x: 0, y: 0, z: 0}`, accumulate
`samples` sensitivity-scaled raw readings per axis (`buses i` is the bus as
seen by iteration `i`), then divide every entry by the sample count. -/
def _calibrate_gyro (buses : ℕ → ℕ → ℕ) (factor : ℚ) (samples : ℕ) : OffsetMap :=
  let offset : OffsetMap := [('x', 0), ('y', 0), ('z', 0)]
  let offset := (List.range samples).foldl
    (fun off i => _calibrate_gyro_step (buses i) factor off) offset
  offset.map fun p => (p.1, p.2 / (samples : ℚ))

/-- `__init__`: the wake-up write and the 100 ms sleep have no effect on the
model; default sensitivities 131.0 and 16384.0, zero angle state, timestamp
`now`, then gyro calibration with the default 200 samples. -/
def init (buses : ℕ → ℕ → ℕ) (now : ℕ) : MPU6050 :=
  let s : MPU6050 :=
    { omega_offset_sensetivity_factor := 131
      accel_offset_sensetivity_factor := 16384
      theta := ⟨0, 0, 0⟩
      _theta_f := ⟨0, 0, 0⟩
      last_update := now
      omega_offset := [] }
  { s with omega_offset := _calibrate_gyro buses s.omega_offset_sensetivity_factor 200 }

/-- `update_theta()`: Δt in seconds from the wraparound-safe tick
difference, timestamp updated to `now`, then forward-Euler accumulation of
`get_omega()` into `_theta_f`, with `theta` the truncated integer view. -/
def update_theta (bus : ℕ → ℕ) (now : ℕ) (s : MPU6050) : Option MPU6050 :=
  let dt : ℚ := (ticks_diff now s.last_update : ℚ) / 1000
  let s1 := { s with last_update := now }
  match get_omega bus s1 with
  | none => none
  | some omega =>
    let tf : Vec3 :=
      ⟨s1._theta_f.x + omega.x * dt, s1._theta_f.y + omega.y * dt,
        s1._theta_f.z + omega.z * dt⟩
    some { s1 with
      _theta_f := tf
      theta := ⟨int_trunc tf.x, int_trunc tf.y, int_trunc tf.z⟩ }

/-- `get_theta()`: run `update_theta`, then return the integer view
(together with the updated state). -/
def get_theta (bus : ℕ → ℕ) (now : ℕ) (s : MPU6050) : Option (IVec3 × MPU6050) :=
  match update_theta bus now s with
  | none => none
  | some s1 => some (s1.theta, s1)

/-- `reset_theta()`: zero both accumulators and restart the clock origin. -/
def reset_theta (now : ℕ) (s : MPU6050) : MPU6050 :=
  { s with theta := ⟨0, 0, 0⟩, _theta_f := ⟨0, 0, 0⟩, last_update := now }

/-- `reset_gyro_offset()`: re-run calibration and replace the stored bias. -/
def reset_gyro_offset (buses : ℕ → ℕ → ℕ) (s : MPU6050) : MPU6050 :=
  { s with omega_offset := _calibrate_gyro buses s.omega_offset_sensetivity_factor 200 }

/-- `set_gyro_offset(offset)`: store the mapping when all of the keys x, y,
z are present, otherwise raise `ValueError`.  The second component is `true`
exactly when the exception is raised; the state is then returned unchanged,
as a Python exception leaves the object as it was. -/
def set_gyro_offset (s : MPU6050) (offset : OffsetMap) : MPU6050 × Bool :=
  if ['x', 'y', 'z'].all (fun axis => hasKey offset axis) then
    ({ s with omega_offset := offset }, false)
  else
    (s, true)

/-- `set_gyro_sensitivity(factor)`. -/
def set_gyro_sensitivity (s : MPU6050) (factor : ℚ) : MPU6050 :=
  { s with omega_offset_sensetivity_factor := factor }

/-- `set_accel_sensitivity(factor)`. -/
def set_accel_sensitivity (s : MPU6050) (factor : ℚ) : MPU6050 :=
  { s with accel_offset_sensetivity_factor := factor }

end MPU6050

/-! ## C1: two's-complement decoding in `_read_raw_data` -/

/-- Shift-or of a high byte with a low byte below 256 is base-256 placement. -/
theorem shiftLeft_lor_eq_mul_add (h l : ℕ) (hl : l < 256) :
    (h <<< 8) ||| l = 256 * h + l := by
  have h1 : h <<< 8 = 2 ^ 8 * h := by rw [Nat.shiftLeft_eq]; ring
  have h2 := Nat.mul_add_lt_is_or (b := l) (i := 8) (by omega) h
  rw [h1, ← h2]

/-- C1: `_read_raw_data` combines the two bytes read at `reg` and `reg + 1`
as the big-endian 16-bit unsigned value `(high << 8) | low` and reinterprets
it as signed two's-complement, subtracting 65536 exactly when the unsigned
value is ≥ 32768, so the result always lies in [-32768, 32767]. -/
theorem C1_read_raw_data_twos_complement (bus : ℕ → ℕ) (reg : ℕ)
    (hh : bus reg ≤ 255) (hl : bus (reg + 1) ≤ 255) :
    MPU6050._read_raw_data bus reg =
      (if 32768 ≤ 256 * bus reg + bus (reg + 1)
        then (256 * bus reg + bus (reg + 1) : ℤ) - 65536
        else (256 * bus reg + bus (reg + 1) : ℤ)) ∧
    -32768 ≤ MPU6050._read_raw_data bus reg ∧
    MPU6050._read_raw_data bus reg ≤ 32767 := by
  simp only [MPU6050._read_raw_data]
  rw [shiftLeft_lor_eq_mul_add _ _ (by omega)]
  refine ⟨?_, ?_, ?_⟩
  · split_ifs <;> push_cast <;> omega
  · split_ifs <;> push_cast <;> omega
  · split_ifs <;> push_cast <;> omega

/-- C1 witness: the byte pairs (0x7F, 0xFF), (0x80, 0x00) and (0x00, 0x00)
decode to 32767, -32768 and 0 respectively. -/
theorem C1_read_raw_data_twos_complement_witness :
    MPU6050._read_raw_data (fun r => if r = 0x43 then 0x7F else 0xFF) 0x43 = 32767 ∧
    MPU6050._read_raw_data (fun r => if r = 0x43 then 0x80 else 0x00) 0x43 = -32768 ∧
    MPU6050._read_raw_data (fun r => if r = 0x45 then 0x00 else 0x00) 0x45 = 0 := by
  refine ⟨?_, ?_, ?_⟩
  · have h := (C1_read_raw_data_twos_complement
      (fun r => if r = 0x43 then 0x7F else 0xFF) 0x43 (by norm_num) (by norm_num)).1
    norm_num at h
    exact h
  · have h := (C1_read_raw_data_twos_complement
      (fun r => if r = 0x43 then 0x80 else 0x00) 0x43 (by norm_num) (by norm_num)).1
    norm_num at h
    exact h
  · have h := (C1_read_raw_data_twos_complement
      (fun r => if r = 0x45 then 0x00 else 0x00) 0x45 (by norm_num) (by norm_num)).1
    norm_num at h
    exact h

/-! ## Concrete fixtures used to instantiate claims -/

/-- A concrete driver state: default sensitivities, zero angle state, zero
gyro bias. -/
def sample_state : MPU6050 :=
  { omega_offset_sensetivity_factor := 131
    accel_offset_sensetivity_factor := 16384
    theta := ⟨0, 0, 0⟩
    _theta_f := ⟨0, 0, 0⟩
    last_update := 0
    omega_offset := [('x', 0), ('y', 0), ('z', 0)] }

/-- A bus whose accel X register pair reads (64, 0), i.e. raw value 16384. -/
def accel_bus : ℕ → ℕ := fun r => if r = 0x3B then 64 else 0

/-- A bus whose gyro X register pair reads (0, 131), i.e. raw value 131. -/
def gyro_bus : ℕ → ℕ := fun r => if r = 0x44 then 131 else 0

/-! ## C8: accel scaling in `get_accel` -/

/-- C8: `get_accel` returns each raw signed accel register value divided by
the current accel sensitivity factor; no bias is subtracted (the result does
not depend on the stored gyro offset, the only bias the driver keeps), and
with the default sensitivity 16384.0 a raw value of 16384 is exactly 1 g. -/
theorem C8_get_accel_scaling (bus : ℕ → ℕ) (s : MPU6050) :
    MPU6050.get_accel bus s =
      ⟨(MPU6050._read_raw_data bus MPU6050._ACCEL_XOUT_H : ℚ) / s.accel_offset_sensetivity_factor,
        (MPU6050._read_raw_data bus MPU6050._ACCEL_YOUT_H : ℚ) / s.accel_offset_sensetivity_factor,
        (MPU6050._read_raw_data bus MPU6050._ACCEL_ZOUT_H : ℚ) / s.accel_offset_sensetivity_factor⟩ ∧
    (∀ o : OffsetMap, MPU6050.get_accel bus { s with omega_offset := o } =
      MPU6050.get_accel bus s) ∧
    (s.accel_offset_sensetivity_factor = 16384 →
      MPU6050._read_raw_data bus MPU6050._ACCEL_XOUT_H = 16384 →
      (MPU6050.get_accel bus s).x = 1) := by
  refine ⟨rfl, fun o => rfl, fun hf hr => ?_⟩
  simp [MPU6050.get_accel, hf, hr]

/-- C8 witness: raw accel value 16384 with the default sensitivity 16384.0
reads exactly 1 g. -/
theorem C8_get_accel_scaling_witness :
    (MPU6050.get_accel accel_bus sample_state).x = 1 := by
  refine (C8_get_accel_scaling accel_bus sample_state).2.2 rfl ?_
  decide

/-! ## C3: gyro scaling and bias subtraction in `get_omega` -/

/-- C3: `get_omega` returns, per axis, the raw signed gyro register value
divided by the gyro sensitivity factor minus the stored per-axis bias; with
bias 1.0 on x, a reading of 1.0 °/s before correction yields 0.0 after, and
with the sensitivity set to f ≠ 0, a raw value equal to f is exactly
1.0 °/s before the bias subtraction. -/
theorem C3_get_omega_bias_subtraction (bus : ℕ → ℕ) (s : MPU6050) (ox oy oz : ℚ)
    (hx : List.lookup 'x' s.omega_offset = some ox)
    (hy : List.lookup 'y' s.omega_offset = some oy)
    (hz : List.lookup 'z' s.omega_offset = some oz) :
    MPU6050.get_omega bus s =
      some ⟨(MPU6050._read_raw_data bus MPU6050._GYRO_XOUT_H : ℚ) /
          s.omega_offset_sensetivity_factor - ox,
        (MPU6050._read_raw_data bus MPU6050._GYRO_YOUT_H : ℚ) /
          s.omega_offset_sensetivity_factor - oy,
        (MPU6050._read_raw_data bus MPU6050._GYRO_ZOUT_H : ℚ) /
          s.omega_offset_sensetivity_factor - oz⟩ ∧
    ((MPU6050._read_raw_data bus MPU6050._GYRO_XOUT_H : ℚ) /
        s.omega_offset_sensetivity_factor = 1 → ox = 1 →
      ∃ v, MPU6050.get_omega bus s = some v ∧ v.x = 0) ∧
    (∀ f : ℚ, f ≠ 0 → s.omega_offset_sensetivity_factor = f →
      (MPU6050._read_raw_data bus MPU6050._GYRO_XOUT_H : ℚ) = f →
      ∃ v, MPU6050.get_omega bus s = some v ∧ v.x = 1 - ox) := by
  have hmain : MPU6050.get_omega bus s =
      some ⟨(MPU6050._read_raw_data bus MPU6050._GYRO_XOUT_H : ℚ) /
          s.omega_offset_sensetivity_factor - ox,
        (MPU6050._read_raw_data bus MPU6050._GYRO_YOUT_H : ℚ) /
          s.omega_offset_sensetivity_factor - oy,
        (MPU6050._read_raw_data bus MPU6050._GYRO_ZOUT_H : ℚ) /
          s.omega_offset_sensetivity_factor - oz⟩ := by
    simp only [MPU6050.get_omega, hx, hy, hz]
  refine ⟨hmain, fun h1 h2 => ⟨_, hmain, ?_⟩, fun f hf hsf hraw => ⟨_, hmain, ?_⟩⟩
  · simp only [h1, h2]
    norm_num
  · simp only [hsf, hraw]
    field_simp

/-- C3 witness: with sensitivity 131.0, zero bias and raw gyro value 131 on
the x axis, `get_omega` reads exactly 1.0 °/s on x. -/
theorem C3_get_omega_bias_subtraction_witness :
    ∃ v, MPU6050.get_omega gyro_bus sample_state = some v ∧ v.x = 1 - 0 := by
  refine (C3_get_omega_bias_subtraction gyro_bus sample_state 0 0 0 rfl rfl rfl).2.2
    131 (by norm_num) rfl ?_
  have h : MPU6050._read_raw_data gyro_bus MPU6050._GYRO_XOUT_H = 131 := by decide
  rw [h]
  norm_num

/-! ## C5: key validation and atomicity of `set_gyro_offset` -/

/-- C5: `set_gyro_offset` raises ValueError exactly when at least one of the
keys x, y, z is missing from the supplied mapping; on the error path the
whole state — in particular the previously stored offset — is unchanged, and
on the success path the bias is replaced by the mapping unconditionally,
with no validation of its numeric values. -/
theorem C5_set_gyro_offset_validation (s : MPU6050) (offset : OffsetMap) :
    ((MPU6050.set_gyro_offset s offset).2 = true ↔
      hasKey offset 'x' = false ∨ hasKey offset 'y' = false ∨
        hasKey offset 'z' = false) ∧
    ((MPU6050.set_gyro_offset s offset).2 = true →
      (MPU6050.set_gyro_offset s offset).1 = s) ∧
    ((MPU6050.set_gyro_offset s offset).2 = false →
      (MPU6050.set_gyro_offset s offset).1 = { s with omega_offset := offset }) := by
  cases hx : hasKey offset 'x' <;> cases hy : hasKey offset 'y' <;>
    cases hz : hasKey offset 'z' <;>
    simp [MPU6050.set_gyro_offset, hx, hy, hz]

/-- C5 witness: the mapping {x: 0, y: 0} (missing z) makes `set_gyro_offset`
raise, and the prior state survives unchanged. -/
theorem C5_set_gyro_offset_validation_witness :
    (MPU6050.set_gyro_offset sample_state [('x', 0), ('y', 0)]).2 = true ∧
    (MPU6050.set_gyro_offset sample_state [('x', 0), ('y', 0)]).1 = sample_state := by
  have h := C5_set_gyro_offset_validation sample_state [('x', 0), ('y', 0)]
  have he : (MPU6050.set_gyro_offset sample_state [('x', 0), ('y', 0)]).2 = true :=
    h.1.mpr (by decide)
  exact ⟨he, h.2.1 he⟩

/-! ## C6: what key sets `set_gyro_offset` accepts (corrected) -/

/-- The extra-key mapping that the claim says must be rejected. -/
def extra_key_offset : OffsetMap := [('x', 1), ('y', 2), ('z', 3), ('w', 4)]

/-- C6 counterexample: a mapping whose key set is {x, y, z, w} — not exactly
the three axis keys — is accepted by `set_gyro_offset` (no error raised) and
stored as the new bias, contradicting the claim that it is rejected. -/
theorem C6_counterexample_extra_key_accepted :
    extra_key_offset.map Prod.fst ≠ ['x', 'y', 'z'] ∧
    (MPU6050.set_gyro_offset sample_state extra_key_offset).2 = false ∧
    (MPU6050.set_gyro_offset sample_state extra_key_offset).1.omega_offset =
      extra_key_offset := by
  exact ⟨by decide, rfl, rfl⟩

/-- C6 amended: `set_gyro_offset` accepts a mapping exactly when it contains
all three axis keys x, y, z; a mapping with additional keys is accepted and
stored unchanged, not rejected. -/
theorem C6_amended_superset_keys_accepted (s : MPU6050) (offset : OffsetMap) :
    ((MPU6050.set_gyro_offset s offset).2 = false ↔
      hasKey offset 'x' = true ∧ hasKey offset 'y' = true ∧
        hasKey offset 'z' = true) ∧
    ((MPU6050.set_gyro_offset s offset).2 = false →
      (MPU6050.set_gyro_offset s offset).1.omega_offset = offset) := by
  cases hx : hasKey offset 'x' <;> cases hy : hasKey offset 'y' <;>
    cases hz : hasKey offset 'z' <;>
    simp [MPU6050.set_gyro_offset, hx, hy, hz]

/-! ## C4: calibration computes the per-axis mean -/

/-- The sensitivity-scaled reading of gyro register `reg` as calibration
iteration `i` sees it. -/
def calib_sample (buses : ℕ → ℕ → ℕ) (factor : ℚ) (reg i : ℕ) : ℚ :=
  (MPU6050._read_raw_data (buses i) reg : ℚ) / factor

/-- Running the calibration loop from an `{x, y, z}` accumulator adds the
per-axis sums of the scaled readings. -/
theorem calibrate_foldl_eq (buses : ℕ → ℕ → ℕ) (factor : ℚ) (n : ℕ) (a b c : ℚ) :
    (List.range n).foldl
        (fun off i => MPU6050._calibrate_gyro_step (buses i) factor off)
        [('x', a), ('y', b), ('z', c)] =
      [('x', a + ∑ i in Finset.range n, calib_sample buses factor MPU6050._GYRO_XOUT_H i),
        ('y', b + ∑ i in Finset.range n, calib_sample buses factor MPU6050._GYRO_YOUT_H i),
        ('z', c + ∑ i in Finset.range n, calib_sample buses factor MPU6050._GYRO_ZOUT_H i)] := by
  induction n with
  | zero => simp
  | succ n ih =>
    rw [List.range_succ, List.foldl_append, ih]
    simp only [List.foldl_cons, List.foldl_nil]
    simp [MPU6050._calibrate_gyro_step, updKey, calib_sample, Finset.sum_range_succ]
    refine ⟨by ring, by ring, by ring⟩

/-- C4: for any sample count, `_calibrate_gyro` returns per axis the sum of
the sensitivity-scaled raw samples divided by the count — the arithmetic
mean, computed with no bias subtraction; when every sample reads the same
raw value R on every axis and N ≥ 1, the offset is exactly R / sensitivity
on each axis, independent of N. -/
theorem C4_calibrate_gyro_mean (buses : ℕ → ℕ → ℕ) (factor : ℚ) (n : ℕ) :
    MPU6050._calibrate_gyro buses factor n =
      [('x', (∑ i in Finset.range n, calib_sample buses factor MPU6050._GYRO_XOUT_H i) / n),
        ('y', (∑ i in Finset.range n, calib_sample buses factor MPU6050._GYRO_YOUT_H i) / n),
        ('z', (∑ i in Finset.range n, calib_sample buses factor MPU6050._GYRO_ZOUT_H i) / n)] ∧
    (∀ R : ℤ, 1 ≤ n →
      (∀ i < n, MPU6050._read_raw_data (buses i) MPU6050._GYRO_XOUT_H = R ∧
        MPU6050._read_raw_data (buses i) MPU6050._GYRO_YOUT_H = R ∧
        MPU6050._read_raw_data (buses i) MPU6050._GYRO_ZOUT_H = R) →
      MPU6050._calibrate_gyro buses factor n =
        [('x', (R : ℚ) / factor), ('y', (R : ℚ) / factor), ('z', (R : ℚ) / factor)]) := by
  have hmain : MPU6050._calibrate_gyro buses factor n =
      [('x', (∑ i in Finset.range n, calib_sample buses factor MPU6050._GYRO_XOUT_H i) / n),
        ('y', (∑ i in Finset.range n, calib_sample buses factor MPU6050._GYRO_YOUT_H i) / n),
        ('z', (∑ i in Finset.range n, calib_sample buses factor MPU6050._GYRO_ZOUT_H i) / n)] := by
    simp only [MPU6050._calibrate_gyro]
    rw [calibrate_foldl_eq]
    simp
  refine ⟨hmain, fun R hn hconst => ?_⟩
  have hN : (n : ℚ) ≠ 0 := Nat.cast_ne_zero.mpr (by omega)
  have hsum : ∀ reg : ℕ,
      (∀ i < n, MPU6050._read_raw_data (buses i) reg = R) →
      (∑ i in Finset.range n, calib_sample buses factor reg i) / n = (R : ℚ) / factor := by
    intro reg hreg
    have hterm : ∀ i ∈ Finset.range n,
        calib_sample buses factor reg i = (R : ℚ) / factor := by
      intro i hi
      unfold calib_sample
      rw [hreg i (Finset.mem_range.mp hi)]
    rw [Finset.sum_congr rfl hterm, Finset.sum_const, nsmul_eq_mul, Finset.card_range,
      mul_div_cancel_left₀ _ hN]
  rw [hmain,
    hsum MPU6050._GYRO_XOUT_H (fun i hi => (hconst i hi).1),
    hsum MPU6050._GYRO_YOUT_H (fun i hi => (hconst i hi).2.1),
    hsum MPU6050._GYRO_ZOUT_H (fun i hi => (hconst i hi).2.2)]

/-- A bus whose three gyro register pairs each read raw value 131 (every low
byte is 131, every high byte 0). -/
def calib_bus : ℕ → ℕ := fun r => if r % 2 = 0 then 131 else 0

/-- C4 witness: two constant samples of raw value 131 at sensitivity 131
calibrate to offset 131/131 on every axis. -/
theorem C4_calibrate_gyro_mean_witness :
    MPU6050._calibrate_gyro (fun _ => calib_bus) 131 2 =
      [('x', (131 : ℤ) / (131 : ℚ)), ('y', (131 : ℤ) / (131 : ℚ)),
        ('z', (131 : ℤ) / (131 : ℚ))] := by
  refine (C4_calibrate_gyro_mean (fun _ => calib_bus) 131 2).2 131 (by norm_num) ?_
  intro i hi
  refine ⟨?_, ?_, ?_⟩ <;> decide

/-- Evaluation rule for `get_omega` once the three axis lookups succeed. -/
theorem get_omega_eq (bus : ℕ → ℕ) (s : MPU6050) (ox oy oz : ℚ)
    (hx : List.lookup 'x' s.omega_offset = some ox)
    (hy : List.lookup 'y' s.omega_offset = some oy)
    (hz : List.lookup 'z' s.omega_offset = some oz) :
    MPU6050.get_omega bus s =
      some ⟨(MPU6050._read_raw_data bus MPU6050._GYRO_XOUT_H : ℚ) /
          s.omega_offset_sensetivity_factor - ox,
        (MPU6050._read_raw_data bus MPU6050._GYRO_YOUT_H : ℚ) /
          s.omega_offset_sensetivity_factor - oy,
        (MPU6050._read_raw_data bus MPU6050._GYRO_ZOUT_H : ℚ) /
          s.omega_offset_sensetivity_factor - oz⟩ := by
  simp only [MPU6050.get_omega, hx, hy, hz]

/-! ## C2: forward-Euler integration in `update_theta` / `get_theta` -/

/-- C2: `update_theta` computes Δt as the wraparound-safe millisecond tick
difference divided by 1000, sets `last_update` to now and adds omega·Δt to
each axis of the float accumulator (forward Euler); `get_theta` performs the
update and then returns the integer view, so it is not a pure accessor; the
tick difference survives a clock rollover (last conjunct), and with
omega.x = 10 and Δt = 0.5 s one call advances `_theta_f.x` by exactly 5. -/
theorem C2_update_theta_forward_euler (bus : ℕ → ℕ) (now : ℕ) (s : MPU6050)
    (omega : Vec3) (h : MPU6050.get_omega bus s = some omega) :
    (∃ s1, MPU6050.update_theta bus now s = some s1 ∧
      s1.last_update = now ∧
      s1._theta_f.x = s._theta_f.x + omega.x * ((ticks_diff now s.last_update : ℚ) / 1000) ∧
      s1._theta_f.y = s._theta_f.y + omega.y * ((ticks_diff now s.last_update : ℚ) / 1000) ∧
      s1._theta_f.z = s._theta_f.z + omega.z * ((ticks_diff now s.last_update : ℚ) / 1000) ∧
      MPU6050.get_theta bus now s = some (s1.theta, s1) ∧
      (omega.x = 10 → (ticks_diff now s.last_update : ℚ) / 1000 = 1 / 2 →
        s1._theta_f.x = s._theta_f.x + 5)) ∧
    ticks_diff 100 (TICKS_PERIOD - 100) = 200 := by
  have h' : MPU6050.get_omega bus { s with last_update := now } = some omega := h
  have hupd : MPU6050.update_theta bus now s = some
      { s with
        last_update := now
        _theta_f := ⟨s._theta_f.x + omega.x * ((ticks_diff now s.last_update : ℚ) / 1000),
          s._theta_f.y + omega.y * ((ticks_diff now s.last_update : ℚ) / 1000),
          s._theta_f.z + omega.z * ((ticks_diff now s.last_update : ℚ) / 1000)⟩
        theta := ⟨int_trunc (s._theta_f.x + omega.x * ((ticks_diff now s.last_update : ℚ) / 1000)),
          int_trunc (s._theta_f.y + omega.y * ((ticks_diff now s.last_update : ℚ) / 1000)),
          int_trunc (s._theta_f.z + omega.z * ((ticks_diff now s.last_update : ℚ) / 1000))⟩ } := by
    simp only [MPU6050.update_theta, h']
  refine ⟨⟨_, hupd, rfl, rfl, rfl, rfl, ?_, ?_⟩, ?_⟩
  · simp [MPU6050.get_theta, hupd]
  · intro h10 hdt
    show s._theta_f.x + omega.x * ((ticks_diff now s.last_update : ℚ) / 1000) =
      s._theta_f.x + 5
    rw [h10, hdt]
    norm_num
  · decide

/-- A state with gyro sensitivity 1 and zero bias, for the C2 witness. -/
def euler_state : MPU6050 :=
  { omega_offset_sensetivity_factor := 1
    accel_offset_sensetivity_factor := 16384
    theta := ⟨0, 0, 0⟩
    _theta_f := ⟨0, 0, 0⟩
    last_update := 0
    omega_offset := [('x', 0), ('y', 0), ('z', 0)] }

/-- A bus whose gyro X register pair reads raw value 10. -/
def euler_bus : ℕ → ℕ := fun r => if r = 0x44 then 10 else 0

/-- C2 witness: omega.x = 10 °/s and Δt = 0.5 s advance `_theta_f.x` by
exactly 5. -/
theorem C2_update_theta_forward_euler_witness :
    ∃ s1, MPU6050.update_theta euler_bus 500 euler_state = some s1 ∧
      s1._theta_f.x = euler_state._theta_f.x + 5 := by
  have hrawx : MPU6050._read_raw_data euler_bus MPU6050._GYRO_XOUT_H = 10 := by decide
  have hrawy : MPU6050._read_raw_data euler_bus MPU6050._GYRO_YOUT_H = 0 := by decide
  have hrawz : MPU6050._read_raw_data euler_bus MPU6050._GYRO_ZOUT_H = 0 := by decide
  have hg : MPU6050.get_omega euler_bus euler_state = some ⟨10, 0, 0⟩ := by
    rw [get_omega_eq euler_bus euler_state 0 0 0 (by decide) (by decide) (by decide)]
    norm_num [hrawx, hrawy, hrawz, euler_state]
  obtain ⟨⟨s1, hu, _, _, _, _, _, hx⟩, _⟩ :=
    C2_update_theta_forward_euler euler_bus 500 euler_state ⟨10, 0, 0⟩ hg
  have ht : ticks_diff 500 euler_state.last_update = 500 := by decide
  refine ⟨s1, hu, hx rfl ?_⟩
  rw [ht]
  norm_num

/-! ## C7: the integer view is the truncated accumulator -/

/-- Evaluation rule for `update_theta` once `get_omega` succeeds. -/
theorem update_theta_eq (bus : ℕ → ℕ) (now : ℕ) (s : MPU6050) (omega : Vec3)
    (h : MPU6050.get_omega bus s = some omega) :
    MPU6050.update_theta bus now s = some
      { s with
        last_update := now
        _theta_f := ⟨s._theta_f.x + omega.x * ((ticks_diff now s.last_update : ℚ) / 1000),
          s._theta_f.y + omega.y * ((ticks_diff now s.last_update : ℚ) / 1000),
          s._theta_f.z + omega.z * ((ticks_diff now s.last_update : ℚ) / 1000)⟩
        theta := ⟨int_trunc (s._theta_f.x + omega.x * ((ticks_diff now s.last_update : ℚ) / 1000)),
          int_trunc (s._theta_f.y + omega.y * ((ticks_diff now s.last_update : ℚ) / 1000)),
          int_trunc (s._theta_f.z + omega.z * ((ticks_diff now s.last_update : ℚ) / 1000))⟩ } := by
  have h' : MPU6050.get_omega bus { s with last_update := now } = some omega := h
  simp only [MPU6050.update_theta, h']

/-- Each axis of `theta` is `_theta_f` truncated toward zero. -/
def thetaInv (s : MPU6050) : Prop :=
  s.theta.x = int_trunc s._theta_f.x ∧ s.theta.y = int_trunc s._theta_f.y ∧
    s.theta.z = int_trunc s._theta_f.z

/-- C7: after construction, `reset_theta`, and every successful
`update_theta` or `get_theta`, each axis of the integer view `theta` is the
float accumulator `_theta_f` truncated toward zero; truncation toward zero
differs from floor on negatives: −3/2 truncates to −1 but floors to −2. -/
theorem C7_theta_is_truncated_accumulator (buses : ℕ → ℕ → ℕ) (bus : ℕ → ℕ)
    (now : ℕ) (s s1 : MPU6050) (t : IVec3) :
    thetaInv (MPU6050.init buses now) ∧
    thetaInv (MPU6050.reset_theta now s) ∧
    (MPU6050.update_theta bus now s = some s1 → thetaInv s1) ∧
    (MPU6050.get_theta bus now s = some (t, s1) → t = s1.theta ∧ thetaInv s1) ∧
    int_trunc (-3 / 2 : ℚ) = -1 ∧ ⌊(-3 / 2 : ℚ)⌋ = -2 := by
  have hupd : ∀ s2, MPU6050.update_theta bus now s = some s2 → thetaInv s2 := by
    intro s2 h
    simp only [MPU6050.update_theta] at h
    cases hg : MPU6050.get_omega bus { s with last_update := now } with
    | none => rw [hg] at h; cases h
    | some omega =>
      rw [hg] at h
      simp only [Option.some.injEq] at h
      subst h
      exact ⟨rfl, rfl, rfl⟩
  refine ⟨⟨rfl, rfl, rfl⟩, ⟨rfl, rfl, rfl⟩, hupd s1, ?_, ?_, ?_⟩
  · intro h
    simp only [MPU6050.get_theta] at h
    cases hu : MPU6050.update_theta bus now s with
    | none => rw [hu] at h; cases h
    | some s2 =>
      rw [hu] at h
      simp only [Option.some.injEq, Prod.mk.injEq] at h
      obtain ⟨h1, h2⟩ := h
      subst h2
      exact ⟨h1.symm, hupd _ hu⟩
  · norm_num [int_trunc, Int.ceil_eq_iff]
  · norm_num

/-- C7 witness: the invariant holds concretely after `reset_theta`. -/
theorem C7_theta_is_truncated_accumulator_witness :
    thetaInv (MPU6050.reset_theta 0 sample_state) :=
  (C7_theta_is_truncated_accumulator (fun _ _ => 0) (fun _ => 0) 0 sample_state
    sample_state ⟨0, 0, 0⟩).2.1

/-! ## C9: `reset_theta` establishes a fresh integration origin -/

/-- `get_omega` on the euler fixtures: 10 °/s on x, 0 elsewhere. -/
theorem euler_get_omega :
    MPU6050.get_omega euler_bus euler_state = some ⟨10, 0, 0⟩ := by
  have hrawx : MPU6050._read_raw_data euler_bus MPU6050._GYRO_XOUT_H = 10 := by decide
  have hrawy : MPU6050._read_raw_data euler_bus MPU6050._GYRO_YOUT_H = 0 := by decide
  have hrawz : MPU6050._read_raw_data euler_bus MPU6050._GYRO_ZOUT_H = 0 := by decide
  rw [get_omega_eq euler_bus euler_state 0 0 0 (by decide) (by decide) (by decide)]
  norm_num [hrawx, hrawy, hrawz, euler_state]

/-- C9: `reset_theta` zeroes both the integer view and the float
accumulator, stamps `last_update` with the current tick, and leaves the
bias offset and both sensitivity factors untouched; a `get_theta` at the
same tick (Δt = 0) then returns {0, 0, 0}. -/
theorem C9_reset_theta_fresh_origin (bus : ℕ → ℕ) (now : ℕ) (s : MPU6050)
    (omega : Vec3) (h : MPU6050.get_omega bus s = some omega) :
    (MPU6050.reset_theta now s).theta = ⟨0, 0, 0⟩ ∧
    (MPU6050.reset_theta now s)._theta_f = ⟨0, 0, 0⟩ ∧
    (MPU6050.reset_theta now s).last_update = now ∧
    (MPU6050.reset_theta now s).omega_offset = s.omega_offset ∧
    (MPU6050.reset_theta now s).omega_offset_sensetivity_factor =
      s.omega_offset_sensetivity_factor ∧
    (MPU6050.reset_theta now s).accel_offset_sensetivity_factor =
      s.accel_offset_sensetivity_factor ∧
    (∀ t s1, MPU6050.get_theta bus now (MPU6050.reset_theta now s) = some (t, s1) →
      t = ⟨0, 0, 0⟩ ∧ s1.theta = ⟨0, 0, 0⟩ ∧ s1._theta_f = ⟨0, 0, 0⟩) ∧
    MPU6050.get_theta bus now (MPU6050.reset_theta now s) ≠ none := by
  have h0 : MPU6050.get_omega bus (MPU6050.reset_theta now s) = some omega := h
  have hu := update_theta_eq bus now (MPU6050.reset_theta now s) omega h0
  have htd : ticks_diff now now = 0 := by
    unfold ticks_diff TICKS_PERIOD
    norm_num
  have he1 : (MPU6050.reset_theta now s)._theta_f.x + omega.x *
      ((ticks_diff now (MPU6050.reset_theta now s).last_update : ℚ) / 1000) = 0 := by
    show (0 : ℚ) + omega.x * ((ticks_diff now now : ℚ) / 1000) = 0
    rw [htd]
    norm_num
  have he2 : (MPU6050.reset_theta now s)._theta_f.y + omega.y *
      ((ticks_diff now (MPU6050.reset_theta now s).last_update : ℚ) / 1000) = 0 := by
    show (0 : ℚ) + omega.y * ((ticks_diff now now : ℚ) / 1000) = 0
    rw [htd]
    norm_num
  have he3 : (MPU6050.reset_theta now s)._theta_f.z + omega.z *
      ((ticks_diff now (MPU6050.reset_theta now s).last_update : ℚ) / 1000) = 0 := by
    show (0 : ℚ) + omega.z * ((ticks_diff now now : ℚ) / 1000) = 0
    rw [htd]
    norm_num
  have htr : int_trunc 0 = 0 := by norm_num [int_trunc]
  refine ⟨rfl, rfl, rfl, rfl, rfl, rfl, ?_, ?_⟩
  · intro t s1 hts
    rw [MPU6050.get_theta, hu] at hts
    simp only [Option.some.injEq, Prod.mk.injEq] at hts
    obtain ⟨h1, h2⟩ := hts
    subst h2
    refine ⟨?_, ?_, ?_⟩
    · rw [← h1]
      show (⟨int_trunc ((MPU6050.reset_theta now s)._theta_f.x + omega.x *
          ((ticks_diff now (MPU6050.reset_theta now s).last_update : ℚ) / 1000)),
        int_trunc ((MPU6050.reset_theta now s)._theta_f.y + omega.y *
          ((ticks_diff now (MPU6050.reset_theta now s).last_update : ℚ) / 1000)),
        int_trunc ((MPU6050.reset_theta now s)._theta_f.z + omega.z *
          ((ticks_diff now (MPU6050.reset_theta now s).last_update : ℚ) / 1000))⟩ : IVec3) =
        ⟨0, 0, 0⟩
      rw [he1, he2, he3, htr]
    · show (⟨int_trunc ((MPU6050.reset_theta now s)._theta_f.x + omega.x *
          ((ticks_diff now (MPU6050.reset_theta now s).last_update : ℚ) / 1000)),
        int_trunc ((MPU6050.reset_theta now s)._theta_f.y + omega.y *
          ((ticks_diff now (MPU6050.reset_theta now s).last_update : ℚ) / 1000)),
        int_trunc ((MPU6050.reset_theta now s)._theta_f.z + omega.z *
          ((ticks_diff now (MPU6050.reset_theta now s).last_update : ℚ) / 1000))⟩ : IVec3) =
        ⟨0, 0, 0⟩
      rw [he1, he2, he3, htr]
    · show (⟨(MPU6050.reset_theta now s)._theta_f.x + omega.x *
          ((ticks_diff now (MPU6050.reset_theta now s).last_update : ℚ) / 1000),
        (MPU6050.reset_theta now s)._theta_f.y + omega.y *
          ((ticks_diff now (MPU6050.reset_theta now s).last_update : ℚ) / 1000),
        (MPU6050.reset_theta now s)._theta_f.z + omega.z *
          ((ticks_diff now (MPU6050.reset_theta now s).last_update : ℚ) / 1000)⟩ : Vec3) =
        ⟨0, 0, 0⟩
      rw [he1, he2, he3]
  · rw [MPU6050.get_theta, hu]
    simp

/-- C9 witness: resetting the euler fixture at tick 7 and reading `theta`
at the same tick returns the zero vector. -/
theorem C9_reset_theta_fresh_origin_witness :
    (MPU6050.reset_theta 7 euler_state)._theta_f = ⟨0, 0, 0⟩ ∧
    MPU6050.get_theta euler_bus 7 (MPU6050.reset_theta 7 euler_state) ≠ none := by
  have h9 := C9_reset_theta_fresh_origin euler_bus 7 euler_state ⟨10, 0, 0⟩ euler_get_omega
  exact ⟨h9.2.1, h9.2.2.2.2.2.2.2⟩

/-! ## C10: the offset dict always has the three axis keys -/

/-- The mapping contains all three axis keys x, y, z. -/
def hasXYZ (m : OffsetMap) : Prop :=
  hasKey m 'x' = true ∧ hasKey m 'y' = true ∧ hasKey m 'z' = true

/-- C10: calibration returns a mapping with exactly the keys x, y, z, so
construction and `reset_gyro_offset` establish the key invariant;
`set_gyro_offset` preserves it on both its paths; no other operation
touches the mapping; and under the invariant the per-axis lookups inside
`get_omega` cannot fail. -/
theorem C10_offset_keys_invariant (buses : ℕ → ℕ → ℕ) (bus : ℕ → ℕ) (now n : ℕ)
    (factor : ℚ) (s s1 : MPU6050) (offset : OffsetMap) :
    (MPU6050._calibrate_gyro buses factor n).map Prod.fst = ['x', 'y', 'z'] ∧
    hasXYZ (MPU6050.init buses now).omega_offset ∧
    hasXYZ (MPU6050.reset_gyro_offset buses s).omega_offset ∧
    (hasXYZ s.omega_offset →
      hasXYZ (MPU6050.set_gyro_offset s offset).1.omega_offset) ∧
    (MPU6050.update_theta bus now s = some s1 → s1.omega_offset = s.omega_offset) ∧
    (MPU6050.reset_theta now s).omega_offset = s.omega_offset ∧
    (MPU6050.set_gyro_sensitivity s factor).omega_offset = s.omega_offset ∧
    (MPU6050.set_accel_sensitivity s factor).omega_offset = s.omega_offset ∧
    (hasXYZ s.omega_offset → ∃ v, MPU6050.get_omega bus s = some v) := by
  have hxyz : ∀ (g : ℕ → ℕ → ℕ) (f : ℚ) (m : ℕ),
      hasXYZ (MPU6050._calibrate_gyro g f m) := by
    intro g f m
    simp only [MPU6050._calibrate_gyro]
    rw [calibrate_foldl_eq]
    simp [hasXYZ, hasKey, List.lookup]
  refine ⟨?_, ?_, ?_, ?_, ?_, rfl, rfl, rfl, ?_⟩
  · simp only [MPU6050._calibrate_gyro]
    rw [calibrate_foldl_eq]
    simp
  · have hinit : (MPU6050.init buses now).omega_offset =
        MPU6050._calibrate_gyro buses 131 200 := by
      simp only [MPU6050.init]
    rw [hinit]
    exact hxyz buses 131 200
  · have hres : (MPU6050.reset_gyro_offset buses s).omega_offset =
        MPU6050._calibrate_gyro buses s.omega_offset_sensetivity_factor 200 := by
      simp only [MPU6050.reset_gyro_offset]
    rw [hres]
    exact hxyz buses s.omega_offset_sensetivity_factor 200
  · intro hs
    unfold MPU6050.set_gyro_offset
    split
    · next hc =>
      simp only [List.all_cons, List.all_nil, Bool.and_true, Bool.and_eq_true] at hc
      exact ⟨hc.1, hc.2.1, hc.2.2⟩
    · next _ => exact hs
  · intro h
    simp only [MPU6050.update_theta] at h
    cases hg : MPU6050.get_omega bus { s with last_update := now } with
    | none => rw [hg] at h; cases h
    | some w =>
      rw [hg] at h
      simp only [Option.some.injEq] at h
      subst h
      rfl
  · intro hs
    obtain ⟨hx, hy, hz⟩ := hs
    simp only [hasKey] at hx hy hz
    rw [Option.isSome_iff_exists] at hx hy hz
    obtain ⟨ox, hox⟩ := hx
    obtain ⟨oy, hoy⟩ := hy
    obtain ⟨oz, hoz⟩ := hz
    exact ⟨_, get_omega_eq bus s ox oy oz hox hoy hoz⟩

/-- C10 witness: a concrete two-sample calibration yields a mapping whose
key list is exactly x, y, z. -/
theorem C10_offset_keys_invariant_witness :
    (MPU6050._calibrate_gyro (fun _ => calib_bus) 131 2).map Prod.fst =
      ['x', 'y', 'z'] :=
  (C10_offset_keys_invariant (fun _ => calib_bus) calib_bus 0 2 131 sample_state
    sample_state []).1
